import Mathlib

/-!
# RKeyboard: verification of the spec against the sources

Shallow embedding of the parts of the RKeyboard library (Device Event Bridge
in src/events.js, Configuration Registry in src/config.js, the re-emit
capable Key Catcher in key_catcher.js, and the Keyboard Factory in
src/keyboard.js) needed to settle the claims about propagation, event
de-duplication, press-stage parsing, re-emit re-arming and the default key
map. JavaScript arrays are Lean lists, JS objects keyed by strings are
association lists or functions, callbacks are opaque numeric identifiers,
`undefined` / NaN are `Option.none`, and a thrown TypeError is `Except.error`.
-/

namespace RKeyboard

/-! ## Device Event Bridge (src/events.js)

The bridge keeps a process-wide ledger `KEYCODES_PUSHED` of key codes
currently considered held, and lists of registered down/up callbacks, each
with the key-code scope it was created with.  We embed the ledger as a
`List Nat` and a registered callback as its scope (`List Nat`): invoking the
callbacks of a raw signal is returning the list of scopes whose callback got
called. -/

/-- The pressed-keycode ledger `KEYCODES_PUSHED`: key codes currently held. -/
abbrev Ledger := List Nat

/-- `addKeyPushedToArray`: `KEYCODES_PUSHED.push(keyCode)`. -/
def addKeyPushedToArray (l : Ledger) (keyCode : Nat) : Ledger :=
  l ++ [keyCode]

/-- Remove the first occurrence of `k` in a list (JS `splice` of the first
matching index found). -/
def removeFirstOcc (k : Nat) : List Nat → List Nat
  | [] => []
  | x :: xs => if x = k then xs else x :: removeFirstOcc k xs

/-- `removeKeyPushedFromArray`: scans `KEYCODES_PUSHED` from the last index
down to 0 and splices out the first hit, i.e. removes the last occurrence. -/
def removeKeyPushedFromArray (l : Ledger) (keyCode : Nat) : Ledger :=
  (removeFirstOcc keyCode l.reverse).reverse

/-- `isKeyPushed`: `KEYCODES_PUSHED.includes(keyCode)`. -/
def isKeyPushed (l : Ledger) (keyCode : Nat) : Bool :=
  l.contains keyCode

/-- `triggerKeyDownEvent`: every registered down callback whose scope
includes the key code is invoked.  Callbacks are represented by their
scopes; the result lists the scopes whose callback was invoked, in
registration order. -/
def triggerKeyDownEvent (keyDownCallbacks : List (List Nat)) (keyCode : Nat) :
    List (List Nat) :=
  keyDownCallbacks.filter (fun scope => scope.contains keyCode)

/-- `onKeyDown` (src/events.js lines 258-272): if the code is already in the
ledger the signal is dropped; otherwise the code is added and the down
callbacks fire.  Returns the new ledger and the invoked callbacks. -/
def onKeyDown (keyDownCallbacks : List (List Nat)) (l : Ledger)
    (keyCode : Nat) : Ledger × List (List Nat) :=
  if isKeyPushed l keyCode then (l, [])
  else (addKeyPushedToArray l keyCode,
        triggerKeyDownEvent keyDownCallbacks keyCode)

/-- `onKeyUp` (src/events.js lines 278-286), ledger effect only: the code is
removed from the ledger (up callbacks always fire, no de-duplication). -/
def onKeyUpLedger (l : Ledger) (keyCode : Nat) : Ledger :=
  removeKeyPushedFromArray l keyCode

/-- The window blur handler (src/events.js lines 305-313):
`KEYCODES_PUSHED.forEach(keyCode => onKeyUp({ keyCode, ... }))`.
JS `forEach` captures the length once and skips indices that no longer
exist; each `onKeyUp` splices the visited code out of the very array being
iterated.  `idx` is the forEach cursor and `n` the captured length. -/
def blurAux (l : Ledger) (idx n : Nat) : Ledger :=
  if _h : n ≤ idx then l
  else
    match l.get? idx with
    | some k => blurAux (onKeyUpLedger l k) (idx + 1) n
    | none => blurAux l (idx + 1) n
termination_by n - idx
decreasing_by all_goals omega

/-- The whole blur mass-release over the current ledger. -/
def onBlur (l : Ledger) : Ledger :=
  blurAux l 0 l.length

/-! ## Configuration Registry (src/config.js) -/

/-- The default `KEY_MAP` of src/config.js lines 13-113, transcribed entry
by entry.  The line for key code 8 (`8: Back`) is commented out in the
source and therefore absent here. -/
def KEY_MAP : List (Nat × String) :=
  [ (9, "Tab"), (13, "Enter"), (16, "Shift"), (17, "Ctrl"), (18, "Alt"),
    (19, "Pause"), (20, "Caps"), (27, "Esc"), (32, "Space"), (33, "PageUp"),
    (34, "PageDown"), (35, "End"), (36, "Home"), (37, "Left"), (38, "Up"),
    (39, "Right"), (40, "Down"), (45, "Insert"), (46, "Delete"),
    (48, "Num0"), (49, "Num1"), (50, "Num2"), (51, "Num3"), (52, "Num4"),
    (53, "Num5"), (54, "Num6"), (55, "Num7"), (56, "Num8"), (57, "Num9"),
    (65, "a"), (66, "b"), (67, "c"), (68, "d"), (69, "e"), (70, "f"),
    (71, "g"), (72, "h"), (73, "i"), (74, "j"), (75, "k"), (76, "l"),
    (77, "m"), (78, "n"), (79, "o"), (80, "p"), (81, "q"), (82, "r"),
    (83, "s"), (84, "t"), (85, "u"), (86, "v"), (87, "w"), (88, "x"),
    (89, "y"), (90, "z"), (91, "Window"), (92, "Window"), (93, "Select"),
    (96, "Num0"), (97, "Num1"), (98, "Num2"), (99, "Num3"), (100, "Num4"),
    (101, "Num5"), (102, "Num6"), (103, "Num7"), (104, "Num8"),
    (105, "Num9"), (106, "Multiply"), (107, "Add"), (109, "Subtract"),
    (110, "DecimalPoint"), (111, "Divide"), (112, "f1"), (113, "f2"),
    (114, "f3"), (115, "f4"), (116, "f5"), (117, "f6"), (118, "f7"),
    (119, "f8"), (120, "f9"), (121, "f10"), (122, "f11"), (123, "f12"),
    (144, "NumLock"), (145, "ScrollLock"), (186, "SemiColon"),
    (187, "Equal"), (188, "Comma"), (189, "Dash"), (190, "Point"),
    (191, "Slash"), (192, "BackTick"), (219, "OpenBracket"),
    (220, "BackSlash"), (221, "CloseBracket"), (223, "SingleQuote") ]

/-- Lookup of a key code in a key map (JS property access `keyMap[keyCode]`,
`none` when the property is absent). -/
def keyMapLookup (km : List (Nat × String)) (keyCode : Nat) : Option String :=
  (km.find? (fun p => p.1 = keyCode)).map Prod.snd

/-- `DEFAULT_PROPAGATE_VALUE` (src/config.js line 187). -/
def DEFAULT_PROPAGATE_VALUE : Bool := true

/-- `DEFAULT_REEMIT_VALUE` (src/config.js line 226). -/
def DEFAULT_REEMIT_VALUE : Int := 500

/-! ## Key Catcher propagation core (key_catcher.js, the re-emit capable
version)

`layers[keyName]` is a JS array of arrays of callbacks: the outer array is
the propagation layer stack (last = topmost), each inner array is in
registration order (last = most recently added).  Callbacks are opaque
numeric identifiers. -/

/-- The propagation layer stack of one key name. -/
abbrev Layers := List (List Nat)

/-- `getActiveCatchers` (key_catcher.js lines 181-195): the topmost layer,
copied, or `[]` when the stack is absent or empty. -/
def getActiveCatchers (layers : Layers) : List Nat :=
  match layers.getLast? with
  | none => []
  | some top => top

/-- The behaviour of one callback invocation during a dispatch: invoking
callback `cb` while the layer stack is in state `st` yields the layer stack
after the register/unregister side effects of the callback, and whether the
callback called `this.stopPropagation()`.  Inert callbacks are
`fun _ st => (st, false)`. -/
abbrev CbEffects := Nat → Layers → Layers × Bool

/-- Callbacks that neither mutate the layer stack nor stop propagation. -/
def inertEffects : CbEffects := fun _ st => (st, false)

/-- The dispatch loop of `triggerCatchers` (key_catcher.js lines 206-240)
over the reversed snapshot (the JS loop walks the `slice(0)` copy from the
last index down to 0).  `initial` is the flag that skips the staleness check
on the first invocation; for every later candidate the callback must still
be present in the freshly re-read topmost layer.  `stopPropagation` sets the
loop index to `-1`, aborting the remainder of the dispatch.  Returns the
final layer stack and the invoked callbacks in invocation order. -/
def triggerAux (effects : CbEffects) :
    List Nat → Layers → Bool → Layers × List Nat
  | [], st, _ => (st, [])
  | cb :: rest, st, initial =>
    if initial ∨ (getActiveCatchers st).contains cb then
      let (st2, stopped) := effects cb st
      if stopped then (st2, [cb])
      else
        let (st3, invs) := triggerAux effects rest st2 false
        (st3, cb :: invs)
    else triggerAux effects rest st initial

/-- `triggerCatchers` for one key name: snapshot the topmost layer, then run
the dispatch loop from its most recently added callback backwards. -/
def triggerCatchers (effects : CbEffects) (layers : Layers) :
    Layers × List Nat :=
  triggerAux effects (getActiveCatchers layers).reverse layers true

/-- The layer-stack update of `registerKeyListener` (key_catcher.js lines
411-435): first-ever registration creates `[[callback]]`; `propagate`
appends to the topmost layer; otherwise a brand-new layer with only the
callback is pushed. -/
def registerLayerUpdate (layers : Layers) (propagate : Bool) (cb : Nat) :
    Layers :=
  match layers.getLast? with
  | none => [[cb]]
  | some top =>
    if propagate then layers.dropLast ++ [top ++ [cb]]
    else layers ++ [[cb]]

/-- The creation-time propagate default (key_catcher.js lines 75-76):
`opt.propagate || defaultConfig.DEFAULT_PROPAGATE_VALUE`.  A JS `||` keeps
the left operand only when it is truthy, so an explicit `false` (like an
absent option) falls back to the registry default. -/
def catcherDefaultPropagate (optPropagate : Option Bool) : Bool :=
  match optPropagate with
  | some true => true
  | _ => DEFAULT_PROPAGATE_VALUE

/-- The per-registration propagate resolution (key_catcher.js lines
438-443): ES destructuring `propagate = defaultPropagate` substitutes the
default only when `options.propagate` is `undefined`; an explicit `false`
is kept. -/
def registerPropagate (optionsPropagate : Option Bool)
    (defaultPropagate : Bool) : Bool :=
  optionsPropagate.getD defaultPropagate

/-! ## Keyboard Factory (src/keyboard.js)

Per-call key state, one entry per key code (`keysObj[keyCode]`), and the
`onDownEvent` / `onUpEvent` handlers.  Wall-clock instants
(`performance.now()`) are natural numbers supplied by the caller.  A press
stage is an `after` value plus an optional repeat `interval`; the pending
press timeouts of a key object are embedded as the list of stages whose
one-shot timer is still armed (timer identities carry no further
information).  The cross-call `activePresses` registry only feeds the
`combine: false` and non-propagating-listen clearing paths, which no claim
here touches, so it is not part of this state. -/

/-- A press stage after parsing: `after` in ms and an optional repeat
interval.  `Option.none` in a raw entry stands for a value whose unary-plus
coercion is NaN (absent, or non-numeric). -/
structure PressStage where
  after : Option Int
  interval : Option Int
deriving Repr, DecidableEq

/-- One entry of the per-call `keysObj` table (src/keyboard.js lines
184-203). -/
structure KeyObj where
  keyName : String
  isPushed : Bool
  pushStart : Option Nat
  currentPressInterval : Nat
  /-- The armed repeat interval (`keyObj.interval`), `none` when cleared. -/
  interval : Option Int
  /-- The pending press-stage timeouts (`keyObj.timeouts`). -/
  timeouts : List PressStage
deriving Repr, DecidableEq

/-- An event record delivered to the application callback. -/
structure Emitted where
  keyName : String
  event : String
  pressInterval : Nat
  timepress : Nat
deriving Repr, DecidableEq

/-- `sendPushEvent` (src/keyboard.js lines 241-247). -/
def pushEvent (keyName : String) : Emitted :=
  { keyName := keyName, event := "push", pressInterval := 0, timepress := 0 }

/-- `sendReleaseEvent` (src/keyboard.js lines 271-281): `timepress` is
`performance.now() - pushStart` when a push start is recorded, else 0. -/
def releaseEvent (now : Nat) (k : KeyObj) : Emitted :=
  { keyName := k.keyName,
    event := "release",
    pressInterval := k.currentPressInterval,
    timepress := match k.pushStart with
      | some t => now - t
      | none => 0 }

/-- `startPressEvents` (src/keyboard.js lines 317-366): when press stages
are configured, one timeout per stage is pushed onto `keyObj.timeouts`
up front. -/
def startPressEvents (pressIntervals : Option (List PressStage))
    (k : KeyObj) : KeyObj :=
  match pressIntervals with
  | none => k
  | some stages => { k with timeouts := k.timeouts ++ stages }

/-- `clearKeyTimeouts` (src/keyboard.js lines 214-234), restricted to the
key object itself: every pending timeout is cleared and the repeat interval
stopped. -/
def clearKeyTimeouts (k : KeyObj) : KeyObj :=
  { k with timeouts := [], interval := none }

/-- `onDownEvent` (src/keyboard.js lines 380-407).  Aborts when the code is
already pushed, and also when the code is not the most recently pushed
entry of the process-wide `KEYCODES_PUSHED` ledger (the guard of lines
388-393, defending against stale re-emit timers).  Otherwise arms the press
stages, marks the code pushed with the push timestamp, and emits one push
event. -/
def onDownEvent (pressIntervals : Option (List PressStage)) (ledger : Ledger)
    (now : Nat) (k : KeyObj) (keyCode : Nat) : KeyObj × List Emitted :=
  if k.isPushed then (k, [])
  else if ledger.getLast? ≠ some keyCode then (k, [])
  else
    let k1 := startPressEvents pressIntervals k
    let k2 := { k1 with isPushed := true, pushStart := some now }
    (k2, [pushEvent k.keyName])

/-- `onUpEvent` (src/keyboard.js lines 419-437).  Ignores the signal when no
matching push was received; otherwise clears the timers, emits the release
event and resets the pushed state. -/
def onUpEvent (now : Nat) (k : KeyObj) : KeyObj × List Emitted :=
  if !k.isPushed then (k, [])
  else
    let k1 := clearKeyTimeouts k
    let out := releaseEvent now k1
    ({ k1 with isPushed := false, pushStart := none }, [out])

/-- One raw dispatch reaching a per-call key object: a keydown carries the
ledger as it stands at dispatch time and the current instant; a keyup only
the instant. -/
inductive KeyDispatch where
  | down (ledger : Ledger) (now : Nat)
  | up (now : Nat)

/-- One dispatch reaching the key object: keydowns go to `onDownEvent`,
keyups to `onUpEvent` (the `onEvent` switch of src/keyboard.js lines
300-315). -/
def dispatchStep (pressIntervals : Option (List PressStage)) (keyCode : Nat)
    (k : KeyObj) : KeyDispatch → KeyObj × List Emitted
  | .down ledger now => onDownEvent pressIntervals ledger now k keyCode
  | .up now => onUpEvent now k

/-- Run a sequence of dispatches for one key code against one key object,
collecting every emitted event in order. -/
def runKeyObj (pressIntervals : Option (List PressStage)) (keyCode : Nat) :
    KeyObj → List KeyDispatch → KeyObj × List Emitted
  | k, [] => (k, [])
  | k, d :: rest =>
    let s := dispatchStep pressIntervals keyCode k d
    let r := runKeyObj pressIntervals keyCode s.1 rest
    (r.1, s.2 ++ r.2)

/-- The initial per-call state of a key object (src/keyboard.js lines
184-203). -/
def initKeyObj (keyName : String) : KeyObj :=
  { keyName := keyName,
    isPushed := false,
    pushStart := none,
    currentPressInterval := 0,
    interval := none,
    timeouts := [] }

/-- Number of push events in an emission trace. -/
def pushCount (l : List Emitted) : Nat :=
  (l.filter (fun e => e.event = "push")).length

/-- Number of release events in an emission trace. -/
def releaseCount (l : List Emitted) : Nat :=
  (l.filter (fun e => e.event = "release")).length

/-! ## Press stage parsing (src/keyboard.js `_sortPressIntervals`,
lines 559-591, and `_processOptions`, lines 604-643)

`_sortPressIntervals` mutates its array in place: the loop bound `len` is
captured before the loop and never updated, entries are coerced with unary
plus (`none` = NaN), invalid entries are spliced out with `i--; continue`,
and the "insertion sort" inner loop is `const j = i; while (j > 0 && a[j-1]
.after > a[j].after) swap;` - `j` is constant, and a swap falsifies the
guard it just satisfied, so the while body runs at most once and the
element moves at most one slot to the left.  Reading `pressIntervals[i]`
past the end of the spliced array makes `.after` a property access on
`undefined`, which throws a TypeError (`Except.error ()`). -/

/-- JS `>` on two possibly-NaN numbers: any comparison with NaN is false. -/
def jsGT (a b : Option Int) : Bool :=
  match a, b with
  | some x, some y => x > y
  | _, _ => false

/-- The degenerate inner "insertion" loop of `_sortPressIntervals` (lines
583-588): with `j` constant it performs at most the single swap of positions
`i - 1` and `i`. -/
def jsSwapStep (arr : List PressStage) (i : Nat) : List PressStage :=
  if i = 0 then arr
  else
    match arr.get? (i - 1), arr.get? i with
    | some a, some b =>
      if jsGT a.after b.after then (arr.set (i - 1) b).set i a else arr
    | _, _ => arr

/-- The main loop of `_sortPressIntervals` (lines 562-589).  `i` is the loop
counter, `len` the captured initial length. -/
def sortLoop (arr : List PressStage) (i len : Nat) :
    Except Unit (List PressStage) :=
  if _h : len ≤ i then .ok arr
  else
    match _e : arr.get? i with
    | none => .error ()
    | some st =>
      if st.after = none then
        if st.interval = none then
          sortLoop (arr.eraseIdx i) i len
        else
          let arr2 := arr.set i { after := st.interval, interval := st.interval }
          sortLoop (jsSwapStep arr2 i) (i + 1) len
      else
        sortLoop (jsSwapStep arr i) (i + 1) len
termination_by (len - i) + arr.length
decreasing_by
  · have hi : i < arr.length := by
      have := List.get?_eq_some.mp _e
      exact this.choose
    have : (arr.eraseIdx i).length = arr.length - 1 :=
      List.length_eraseIdx_of_lt hi
    omega
  · have h2 : (jsSwapStep (arr.set i { after := st.interval, interval := st.interval }) i).length
        = arr.length := by
      unfold jsSwapStep
      split
      · simp
      · split
        · split <;> simp
        · simp
    omega
  · have h3 : (jsSwapStep arr i).length = arr.length := by
      unfold jsSwapStep
      split
      · rfl
      · split
        · split <;> simp
        · rfl
    omega

/-- `_sortPressIntervals` itself: the loop from index 0 with the captured
length. -/
def sortPressIntervals (arr : List PressStage) :
    Except Unit (List PressStage) :=
  sortLoop arr 0 arr.length

/-- The `options.press` argument shapes accepted by `_processOptions`. -/
inductive PressOpt where
  | absent
  | single (after interval : Option Int)
  | array (l : List PressStage)

/-- The `press` branch of `_processOptions` (src/keyboard.js lines 611-630):
a single object yields one stage (`after` defaulting to `interval` when only
the latter is numeric), an array goes through `_sortPressIntervals`. -/
def processPressOption : PressOpt → Except Unit (Option (List PressStage))
  | .absent => .ok none
  | .single a i =>
    match a, i with
    | none, none => .ok none
    | none, some iv => .ok (some [{ after := some iv, interval := some iv }])
    | some av, none => .ok (some [{ after := some av, interval := none }])
    | some av, some iv => .ok (some [{ after := some av, interval := some iv }])
  | .array l => (sortPressIntervals l).map some

/-! ## Key Catcher unregistration and re-emit re-arming
(key_catcher.js `unregisterKeyListener`, lines 505-594)

The per-key-name mutable state visible to `unregisterKeyListener`:
`layers[keyName]` (an absent property and a deleted one are both the empty
stack - the code deletes the property whenever the stack empties),
`reEmitTimeoutIds[keyName]` (a timer id, set to `0` when cleared, embedded
as a pending flag) and `keyCodesMaintained[keyName]`.  The `reEmitTimeouts`
WeakMap maps a callback to the re-emit delay it registered with (only
populated at registration when that delay was `>= 0`).  Arming or clearing
a platform timer is reported in the output record.

A timer armed by the source stores its callback body.  The register path
(lines 401-406) iterates `keyCodesMaintained[keyName]` and dispatches a
synthetic keydown per still-held code.  The unregister path (lines 557-561)
instead calls `keyCodesMaintained.forEach(...)` on the plain object itself:
a plain JS object has no `forEach` method, so firing that timer throws a
TypeError and dispatches nothing. -/

/-- The body of an armed re-emit timer, as written in the source. -/
inductive ReEmitBody where
  /-- `keyCodesMaintained[keyName].forEach(keyCode => onDownEvent(keyCode))`,
  the register-path body (key_catcher.js lines 401-406). -/
  | perKeyName (keyName : String)
  /-- `keyCodesMaintained.forEach(keyCode => onDownEvent(keyCode))`, the
  unregister-path body (key_catcher.js lines 557-561): `forEach` is looked
  up on the plain `keyCodesMaintained` object. -/
  | onObject
deriving Repr, DecidableEq

/-- Firing a re-emit timer body: the key codes handed to `onDownEvent`, or a
TypeError.  The register-path body reads the per-key-name array (treated as
empty when the property is absent, as `forEach` over `undefined` cannot be
reached there: the timer is only armed when the array is non-empty).  The
unregister-path body resolves `forEach` on a plain object, which has no such
method, so the call throws before any dispatch. -/
def fireReEmitBody (keyCodesMaintained : String → Option (List Nat)) :
    ReEmitBody → Except Unit (List Nat)
  | .perKeyName keyName => .ok ((keyCodesMaintained keyName).getD [])
  | .onObject => .error ()

/-- The state of one key name before/after `unregisterKeyListener`. -/
structure UnregState where
  layers : Layers
  /-- `reEmitTimeoutIds[keyName]` is truthy (a pending timer id). -/
  reEmitTimerPending : Bool
  /-- `keyCodesMaintained[keyName]` (`none` = property absent). -/
  keyCodesMaintained : Option (List Nat)
deriving Repr, DecidableEq

/-- The observable actions of one `unregisterKeyListener` call. -/
structure UnregOutput where
  /-- `clearTimeout` was called on the pending re-emit timer. -/
  clearedTimer : Bool
  /-- A `setTimeout(body, delay)` was armed: its delay and body. -/
  armedTimer : Option (Int × ReEmitBody)
deriving Repr, DecidableEq

/-- Index of the topmost layer containing `cb` (the JS loop walks `i` from
`layers[keyName].length - 1` down to `0` and stops at the first layer whose
`indexOf(callback)` is non-negative). -/
def findFromTop (layers : Layers) (cb : Nat) : Option Nat :=
  match layers with
  | [] => none
  | top :: rest =>
    match findFromTop rest cb with
    | some j => some (j + 1)
    | none => if top.contains cb then some 0 else none

/-- The re-arm block of `unregisterKeyListener` (key_catcher.js lines
524-566), entered when the removed callback is the last element of the
topmost layer: clear any pending re-emit timer, and when keys are still
held and the next most recent callback of the same layer registered a
re-emit delay `>= 0` (a WeakMap miss makes `undefined >= 0` false),
rebuild `keyCodesMaintained[keyName]` from the still-held codes of this
key name and arm a new timer with the unregister-path body.  Returns
(timer cleared?, timer still pending?, keyCodesMaintained, armed timer). -/
def reArmBlock (keyMap : List (Nat × String))
    (reEmitTimeouts : Nat → Option Int) (pushed : Ledger) (keyName : String)
    (callbackArray : List Nat) (st : UnregState) :
    Bool × Bool × Option (List Nat) × Option (Int × ReEmitBody) :=
  let cleared := st.reEmitTimerPending
  if pushed.isEmpty then (cleared, false, st.keyCodesMaintained, none)
  else
    match callbackArray.get? (callbackArray.length - 2) with
    | none => (cleared, false, st.keyCodesMaintained, none)
    | some nextCallback =>
      match reEmitTimeouts nextCallback with
      | none => (cleared, false, some [], none)
      | some reEmitTimeout =>
        if reEmitTimeout ≥ 0 then
          let kcsm :=
            pushed.filter (fun kc => keyMapLookup keyMap kc = some keyName)
          if kcsm.isEmpty then (cleared, false, some kcsm, none)
          else (cleared, true, some kcsm,
                some (reEmitTimeout, ReEmitBody.onObject))
        else (cleared, false, some [], none)

/-- `unregisterKeyListener` (key_catcher.js lines 505-594) for one key
name: locate the callback from the topmost layer down, run the re-arm
block when it is the most recently added entry of the topmost layer,
splice it out, and drop the layer (and the key name) when emptied. -/
def unregisterKeyListener (keyMap : List (Nat × String))
    (reEmitTimeouts : Nat → Option Int) (pushed : Ledger) (keyName : String)
    (cb : Nat) (st : UnregState) : UnregState × UnregOutput :=
  if st.layers.isEmpty then (st, { clearedTimer := false, armedTimer := none })
  else
    let lastLayerLevel := st.layers.length - 1
    match findFromTop st.layers cb with
    | none => (st, { clearedTimer := false, armedTimer := none })
    | some i =>
      let callbackArray := (st.layers.get? i).getD []
      let indexOf := callbackArray.indexOf cb
      let (cleared, pending, kcm, armed) :=
        if i = lastLayerLevel ∧ indexOf = callbackArray.length - 1 then
          reArmBlock keyMap reEmitTimeouts pushed keyName callbackArray st
        else (false, st.reEmitTimerPending, st.keyCodesMaintained, none)
      let newArr := callbackArray.eraseIdx indexOf
      let newLayers :=
        if newArr.isEmpty then st.layers.eraseIdx i
        else st.layers.set i newArr
      ({ layers := newLayers,
         reEmitTimerPending := pending,
         keyCodesMaintained := kcm },
       { clearedTimer := cleared, armedTimer := armed })

/-! ## Theorems -/

/-- C8: the claim states that the default key map of the Configuration
Registry maps key code 8 to the key name Back.  In src/config.js the line
`8: Back` is commented out (line 14), so the default `KEY_MAP` has no entry
for key code 8 at all (and no entry with the name Back), although the
repository documentation doc/KEY_MAP.md documents 8 -> Back in the default
key map.  This theorem evaluates the code at the failing input 8. -/
theorem keymap_code8_back_missing :
    keyMapLookup KEY_MAP 8 = none ∧
    (KEY_MAP.map Prod.snd).contains "Back" = false := by
  constructor
  · rfl
  · rfl

/-- C7 counterexample: a Key Catcher created with an explicit
`propagate: false` does not make a propagate-less register call
non-propagating.  The creation default is computed with
`opt.propagate || DEFAULT_PROPAGATE_VALUE`, so the explicit `false` falls
back to the registry default `true`, and a register call that omits
`propagate` appends the new callback to the existing topmost layer
`[[1]] -> [[1, 2]]` instead of pushing the brand-new exclusive layer
`[[1], [2]]` that the claim requires. -/
theorem register_creation_propagate_false_counterexample :
    registerLayerUpdate [[1]]
      (registerPropagate none (catcherDefaultPropagate (some false))) 2
      = [[1, 2]] ∧
    registerLayerUpdate [[1]]
      (registerPropagate none (catcherDefaultPropagate (some false))) 2
      ≠ [[1], [2]] := by
  constructor
  · rfl
  · decide

/-- C7 amended: a register call that omits `propagate` uses the creation
value as its default only when that value is truthy; a falsy creation value
(an explicit `false` like an absent option) falls back to the registry
`DEFAULT_PROPAGATE_VALUE`.  In particular a Key Catcher created with
`propagate: false` treats a propagate-less register call as propagating:
the callback is appended to the existing topmost layer. -/
theorem register_creation_propagate_default (v : Option Bool) (rest : Layers)
    (top : List Nat) (cb : Nat) :
    catcherDefaultPropagate v
      = (if v = some true then true else DEFAULT_PROPAGATE_VALUE) ∧
    registerLayerUpdate (rest ++ [top])
      (registerPropagate none (catcherDefaultPropagate (some false))) cb
      = rest ++ [top ++ [cb]] := by
  constructor
  · cases v with
    | none => rfl
    | some b => cases b <;> rfl
  · simp [registerLayerUpdate, registerPropagate, catcherDefaultPropagate,
          DEFAULT_PROPAGATE_VALUE, List.getLast?_concat]

/-- C4: starting from any ledger that does not contain key code `k`, two
consecutive raw key-down signals for `k` with no intervening key-up forward
exactly one down transition: the first invokes every registered down
callback whose scope includes `k`, in registration order, and the second is
dropped because `k` is by then present in the pressed-keycode ledger. -/
theorem keydown_autorepeat_dedup (cbs : List (List Nat)) (l : Ledger)
    (k : Nat) (h : isKeyPushed l k = false) :
    (onKeyDown cbs l k).2 = cbs.filter (fun scope => scope.contains k) ∧
    (onKeyDown cbs l k).1 = l ++ [k] ∧
    isKeyPushed (onKeyDown cbs l k).1 k = true ∧
    (onKeyDown cbs (onKeyDown cbs l k).1 k).2 = [] ∧
    (onKeyDown cbs (onKeyDown cbs l k).1 k).1 = (onKeyDown cbs l k).1 := by
  have h1 : (onKeyDown cbs l k).1 = l ++ [k] := by
    simp [onKeyDown, h, addKeyPushedToArray]
  have h2 : isKeyPushed (l ++ [k]) k = true := by
    simp [isKeyPushed]
  refine ⟨?_, h1, ?_, ?_, ?_⟩
  · simp [onKeyDown, h, triggerKeyDownEvent]
  · rw [h1]; exact h2
  · rw [h1]; simp [onKeyDown, h2]
  · rw [h1]; simp [onKeyDown, h2]

/-- C4 witness: concrete two-keydown run for key code 5 with one registered
callback whose scope is `[5]`, from the empty ledger. -/
theorem keydown_autorepeat_dedup_witness :
    (onKeyDown [[5]] [] 5).2 = [[5]] ∧
    (onKeyDown [[5]] (onKeyDown [[5]] [] 5).1 5).2 = [] := by
  have h := keydown_autorepeat_dedup [[5]] [] 5 (by decide)
  exact ⟨h.1, h.2.2.2.1⟩

/-- C2 counterexample: a keydown dispatch for key code 65 (in the key-state
table, state not pushed) while the pressed-keycode ledger is `[65, 13]`
(65 held but not the most recent push) emits nothing and does not mark the
code pushed, contradicting the claim that every such dispatch marks the
code pushed and emits a push event.  The guard of src/keyboard.js lines
388-393 aborts whenever the code is not the last entry of
`KEYCODES_PUSHED`. -/
theorem keyboard_push_counterexample :
    (initKeyObj "a").isPushed = false ∧
    onDownEvent none [65, 13] 1000 (initKeyObj "a") 65
      = (initKeyObj "a", []) := by
  constructor
  · rfl
  · rfl

/-- C2 amended: for a keydown dispatch for a code in the key-state
table whose state does not show pushed AND whose code is the most recently
pushed entry of the pressed-keycode ledger, the call marks the code pushed,
records the push timestamp, and emits exactly one push event with
`timepress = 0`; a second keydown dispatch for the same code before the
matching release emits nothing and changes nothing. -/
theorem keyboard_push_marks_and_emits (p : Option (List PressStage))
    (ledger : Ledger) (now : Nat) (k : KeyObj) (kc : Nat)
    (h1 : k.isPushed = false) (h2 : ledger.getLast? = some kc) :
    (onDownEvent p ledger now k kc).1.isPushed = true ∧
    (onDownEvent p ledger now k kc).1.pushStart = some now ∧
    (onDownEvent p ledger now k kc).2 = [pushEvent k.keyName] ∧
    ∀ (ledger2 : Ledger) (now2 : Nat),
      onDownEvent p ledger2 now2 (onDownEvent p ledger now k kc).1 kc
        = ((onDownEvent p ledger now k kc).1, []) := by
  have hpushed : (onDownEvent p ledger now k kc).1.isPushed = true := by
    simp [onDownEvent, h1, h2, startPressEvents]
  refine ⟨hpushed, ?_, ?_, ?_⟩
  · simp [onDownEvent, h1, h2, startPressEvents]
  · simp [onDownEvent, h1, h2]
  · intro ledger2 now2
    have hstep : ∀ (k2 : KeyObj), k2.isPushed = true →
        onDownEvent p ledger2 now2 k2 kc = (k2, []) := by
      intro k2 hk2
      simp [onDownEvent, hk2]
    exact hstep _ hpushed

/-- C2 amended witness: key code 65, ledger `[13, 65]`, fresh key object:
the push is emitted and the immediate second dispatch emits nothing. -/
theorem keyboard_push_marks_and_emits_witness :
    (onDownEvent none [13, 65] 1000 (initKeyObj "a") 65).2
      = [pushEvent "a"] ∧
    onDownEvent none [13, 65] 2000
        (onDownEvent none [13, 65] 1000 (initKeyObj "a") 65).1 65
      = ((onDownEvent none [13, 65] 1000 (initKeyObj "a") 65).1, []) := by
  have h := keyboard_push_marks_and_emits none [13, 65] 1000 (initKeyObj "a")
    65 (by decide) (by decide)
  exact ⟨h.2.2.1, h.2.2.2 [13, 65] 2000⟩

/-- The dispatch loop run over a list of candidates that are all present in
the (unchanging) topmost layer, with inert callbacks, invokes exactly the
candidates in order and leaves the layer stack untouched. -/
theorem triggerAux_inert (layers : Layers) :
    ∀ (l : List Nat), (∀ c ∈ l, c ∈ getActiveCatchers layers) →
      ∀ (b : Bool), triggerAux inertEffects l layers b = (layers, l) := by
  intro l
  induction l with
  | nil => intro _ b; rfl
  | cons c rest ih =>
    intro hmem b
    have hc : (getActiveCatchers layers).contains c = true :=
      List.elem_eq_true_of_mem (hmem c (List.mem_cons_self c rest))
    have hrest := ih (fun x hx => hmem x (List.mem_cons_of_mem c hx)) false
    rw [triggerAux, if_pos (Or.inr hc)]
    simp [inertEffects, hrest]

/-- Every callback the dispatch loop invokes comes from the snapshot list it
iterates over, whatever register/unregister side effects and
stopPropagation decisions are. -/
theorem triggerAux_invoked_mem_snapshot (effects : CbEffects) :
    ∀ (l : List Nat) (st : Layers) (b : Bool) (cb : Nat),
      cb ∈ (triggerAux effects l st b).2 → cb ∈ l := by
  intro l
  induction l with
  | nil => intro st b cb h; simp [triggerAux] at h
  | cons c rest ih =>
    intro st b cb h
    rw [triggerAux] at h
    by_cases hcond : (b ∨ (getActiveCatchers st).contains c)
    · simp only [if_pos hcond] at h
      rcases hstop : (effects c st).2 with _ | _
      · rw [hstop] at h
        simp only [Bool.false_eq_true, if_false] at h
        rcases List.mem_cons.mp h with hc | hrest
        · exact hc ▸ List.mem_cons_self c rest
        · exact List.mem_cons_of_mem c (ih (effects c st).1 false cb hrest)
      · rw [hstop] at h
        simp only [if_true] at h
        rcases List.mem_singleton.mp h with hc
        exact hc ▸ List.mem_cons_self c rest
    · simp only [if_neg hcond] at h
      exact List.mem_cons_of_mem c (ih st b cb h)

/-- C1: a down/up dispatch for a key name whose propagation layer stack is
`rest ++ [top]` (so `top` is the topmost, most recently created layer)
invokes, for callbacks without mid-dispatch side effects, exactly the
callbacks of `top` in most-recently-added-first order (the reverse of the
registration-ordered layer), leaves the stack unchanged, and invokes no
callback that sits only in a lower layer. -/
theorem dispatch_topmost_layer_only (rest : Layers) (top : List Nat) :
    triggerCatchers inertEffects (rest ++ [top])
      = (rest ++ [top], top.reverse) ∧
    (∀ cb, cb ∈ (triggerCatchers inertEffects (rest ++ [top])).2 ↔ cb ∈ top) ∧
    ∀ low ∈ rest, ∀ cb ∈ low, cb ∉ top →
      cb ∉ (triggerCatchers inertEffects (rest ++ [top])).2 := by
  have hactive : getActiveCatchers (rest ++ [top]) = top := by
    simp [getActiveCatchers, List.getLast?_concat]
  have hrun : triggerCatchers inertEffects (rest ++ [top])
      = (rest ++ [top], top.reverse) := by
    rw [triggerCatchers, hactive]
    exact triggerAux_inert (rest ++ [top]) top.reverse
      (fun c hc => by rw [hactive]; exact List.mem_reverse.mp hc) true
  refine ⟨hrun, ?_, ?_⟩
  · intro cb
    rw [hrun]
    exact List.mem_reverse
  · intro low _ cb _ hnot
    rw [hrun]
    simpa using fun hmem => hnot (List.mem_reverse.mp hmem)

/-- C1 witness: stack `[[1, 2], [3, 4, 5]]` - the dispatch invokes `5, 4, 3`
(topmost layer, most recent first) and the dormant callback `1` of the lower
layer is not invoked. -/
theorem dispatch_topmost_layer_only_witness :
    triggerCatchers inertEffects [[1, 2], [3, 4, 5]]
      = ([[1, 2], [3, 4, 5]], [5, 4, 3]) ∧
    1 ∉ (triggerCatchers inertEffects [[1, 2], [3, 4, 5]]).2 := by
  have h := dispatch_topmost_layer_only [[1, 2]] [3, 4, 5]
  exact ⟨h.1, h.2.2 [1, 2] (by decide) 1 (by decide) (by decide)⟩

/-- C10: a callback that is not in the topmost layer when a dispatch for its
key name starts is never invoked during that dispatch, whatever
registrations the invoked callbacks perform meanwhile: the loop iterates a
snapshot copy of the topmost layer, and its staleness check only skips
snapshot members that disappeared, never adds newcomers. -/
theorem dispatch_never_invokes_midflight_registration (effects : CbEffects)
    (layers : Layers) (cb : Nat)
    (h : cb ∉ getActiveCatchers layers) :
    cb ∉ (triggerCatchers effects layers).2 := by
  intro hmem
  exact h (List.mem_reverse.mp
    (triggerAux_invoked_mem_snapshot effects
      (getActiveCatchers layers).reverse layers true cb hmem))

/-- C10 witness: callbacks `[1, 2]` are active; invoking `2` registers the
new callback `7` into the topmost layer mid-dispatch.  The dispatch still
invokes exactly `2` then `1`; `7` is not invoked. -/
theorem dispatch_never_invokes_midflight_registration_witness :
    7 ∉ (triggerCatchers
          (fun c st => if c = 2 then ([[1, 2, 7]], false) else (st, false))
          [[1, 2]]).2 ∧
    (triggerCatchers
      (fun c st => if c = 2 then ([[1, 2, 7]], false) else (st, false))
      [[1, 2]]).2 = [2, 1] := by
  refine ⟨dispatch_never_invokes_midflight_registration _ [[1, 2]] 7
    (by decide), by decide⟩

/-- Splicing out the first occurrence yields a sublist of the original. -/
theorem removeFirstOcc_sublist (k : Nat) :
    ∀ l : List Nat, List.Sublist (removeFirstOcc k l) l
  | [] => List.Sublist.refl []
  | x :: xs => by
    rw [removeFirstOcc]
    split
    · exact List.sublist_cons_self x xs
    · exact List.Sublist.cons₂ x (removeFirstOcc_sublist k xs)

/-- `removeKeyPushedFromArray` preserves element uniqueness. -/
theorem removeKeyPushedFromArray_nodup (l : Ledger) (k : Nat)
    (h : l.Nodup) : (removeKeyPushedFromArray l k).Nodup := by
  rw [removeKeyPushedFromArray]
  exact List.nodup_reverse.mpr
    (List.Nodup.sublist (removeFirstOcc_sublist k l.reverse)
      (List.nodup_reverse.mpr h))

/-- The blur loop preserves element uniqueness of the ledger, for every
forEach cursor position and captured length. -/
theorem blurAux_nodup (l : Ledger) (idx n : Nat) (h : l.Nodup) :
    (blurAux l idx n).Nodup := by
  induction l, idx, n using blurAux.induct with
  | case1 l idx n hle =>
    rw [blurAux]
    simp only [hle, dite_true]
    exact h
  | case2 l idx n hle k hk ih =>
    rw [blurAux]
    simp only [hle, dite_false, hk]
    exact ih (removeKeyPushedFromArray_nodup l k h)
  | case3 l idx n hle hk ih =>
    rw [blurAux]
    simp only [hle, dite_false, hk]
    exact ih h

/-- C9: the pressed-keycode ledger never acquires a duplicate key code: the
keydown handler appends the code only when absent, the keyup handler
removes an occurrence, and the window-blur mass-release is a sequence of
such removals - each handler maps a duplicate-free ledger to a
duplicate-free ledger. -/
theorem ledger_nodup_preserved (cbs : List (List Nat)) (l : Ledger)
    (k : Nat) (h : l.Nodup) :
    (onKeyDown cbs l k).1.Nodup ∧
    (onKeyUpLedger l k).Nodup ∧
    (onBlur l).Nodup := by
  refine ⟨?_, removeKeyPushedFromArray_nodup l k h, blurAux_nodup l 0 l.length h⟩
  by_cases hp : isKeyPushed l k = true
  · simp [onKeyDown, hp]
    exact h
  · have hk : k ∉ l := by
      simp [isKeyPushed] at hp
      simpa using hp
    simp [onKeyDown, hp, addKeyPushedToArray]
    simp [List.nodup_append, h, hk]

/-- C9 witness: the three handlers applied to the duplicate-free ledger
`[1, 2]` (keydown for code 1, keyup for code 1, blur). -/
theorem ledger_nodup_preserved_witness :
    ([1, 2] : Ledger).Nodup ∧
    (onKeyDown [] [1, 2] 1).1.Nodup ∧
    (onKeyUpLedger [1, 2] 1).Nodup ∧
    (onBlur [1, 2]).Nodup := by
  have h := ledger_nodup_preserved [] [1, 2] 1 (by decide)
  exact ⟨by decide, h.1, h.2.1, h.2.2⟩

/-- A prefix of a cons is empty or a cons of a prefix of the tail. -/
theorem prefix_cons_cases {α : Type} {pre : List α} {a : α} {l : List α}
    (h : pre <+: a :: l) : pre = [] ∨ ∃ t, pre = a :: t ∧ t <+: l := by
  cases pre with
  | nil => exact Or.inl rfl
  | cons b t =>
    obtain ⟨r, hr⟩ := h
    rw [List.cons_append] at hr
    injection hr with h1 h2
    exact Or.inr ⟨t, by rw [h1], ⟨r, h2⟩⟩

/-- Push count of a cons. -/
theorem pushCount_cons (e : Emitted) (l : List Emitted) :
    pushCount (e :: l) = (if e.event = "push" then 1 else 0) + pushCount l := by
  simp only [pushCount, List.filter_cons]
  split
  · rename_i h
    rw [decide_eq_true_eq] at h
    simp [h, Nat.add_comm]
  · rename_i h
    rw [decide_eq_true_eq] at h
    simp [h]

/-- Release count of a cons. -/
theorem releaseCount_cons (e : Emitted) (l : List Emitted) :
    releaseCount (e :: l)
      = (if e.event = "release" then 1 else 0) + releaseCount l := by
  simp only [releaseCount, List.filter_cons]
  split
  · rename_i h
    rw [decide_eq_true_eq] at h
    simp [h, Nat.add_comm]
  · rename_i h
    rw [decide_eq_true_eq] at h
    simp [h]

/-- Any single dispatch step emits nothing (pushed state unchanged), or a
single push event (transition from not-pushed to pushed), or a single
release event (transition from pushed to not-pushed). -/
theorem dispatchStep_shape (p : Option (List PressStage)) (kc : Nat)
    (k : KeyObj) (d : KeyDispatch) :
    ((dispatchStep p kc k d).2 = []
      ∧ (dispatchStep p kc k d).1.isPushed = k.isPushed) ∨
    ((dispatchStep p kc k d).2 = [pushEvent k.keyName]
      ∧ k.isPushed = false ∧ (dispatchStep p kc k d).1.isPushed = true) ∨
    (∃ e : Emitted, e.event = "release" ∧ (dispatchStep p kc k d).2 = [e]
      ∧ k.isPushed = true ∧ (dispatchStep p kc k d).1.isPushed = false) := by
  cases d with
  | down ledger now =>
    by_cases hk : k.isPushed
    · left; simp [dispatchStep, onDownEvent, hk]
    · by_cases hg : ledger.getLast? = some kc
      · right; left
        simp [dispatchStep, onDownEvent, hk, hg, startPressEvents]
      · left; simp [dispatchStep, onDownEvent, hk, hg]
  | up now =>
    by_cases hk : k.isPushed
    · right; right
      refine ⟨releaseEvent now (clearKeyTimeouts k), rfl, ?_⟩
      simp [dispatchStep, onUpEvent, hk]
    · left; simp [dispatchStep, onUpEvent, hk]

/-- In every prefix of the emission trace of a dispatch run, the number of
release events is at most the number of push events plus one if the
starting state was already pushed. -/
theorem runKeyObj_prefix_release_le (p : Option (List PressStage)) (kc : Nat) :
    ∀ (ins : List KeyDispatch) (k : KeyObj) (pre : List Emitted),
      pre <+: (runKeyObj p kc k ins).2 →
      releaseCount pre ≤ pushCount pre + (if k.isPushed then 1 else 0) := by
  intro ins
  induction ins with
  | nil =>
    intro k pre hpre
    have hnil : pre = [] := List.prefix_nil.mp hpre
    simp [hnil, pushCount, releaseCount]
  | cons d rest ih =>
    intro k pre hpre
    have hrun : (runKeyObj p kc k (d :: rest)).2
        = (dispatchStep p kc k d).2
          ++ (runKeyObj p kc (dispatchStep p kc k d).1 rest).2 := rfl
    rw [hrun] at hpre
    rcases dispatchStep_shape p kc k d with ⟨hout, hpush⟩ |
      ⟨hout, hk, hpush⟩ | ⟨e, hev, hout, hk, hpush⟩
    · rw [hout, List.nil_append] at hpre
      have hb := ih (dispatchStep p kc k d).1 pre hpre
      rwa [hpush] at hb
    · rw [hout, List.singleton_append] at hpre
      rcases prefix_cons_cases hpre with hnil | ⟨t, hpre2, hpfx⟩
      · simp [hnil, pushCount, releaseCount]
      · have hbound := ih (dispatchStep p kc k d).1 t hpfx
        rw [hpush] at hbound
        rw [hpre2, pushCount_cons, releaseCount_cons]
        simp only [pushEvent] at *
        simp only [hk]
        simp at hbound ⊢
        omega
    · rw [hout, List.singleton_append] at hpre
      rcases prefix_cons_cases hpre with hnil | ⟨t, hpre2, hpfx⟩
      · simp [hnil, pushCount, releaseCount]
      · have hbound := ih (dispatchStep p kc k d).1 t hpfx
        rw [hpush] at hbound
        rw [hpre2, pushCount_cons, releaseCount_cons, hev]
        have hne : ("release" : String) ≠ "push" := by decide
        simp only [hk, if_true, if_neg hne]
        simp at hbound ⊢
        omega

/-- C3: a keyup dispatch for a code whose per-call state shows not pushed
emits nothing and leaves the key state - isPushed, pushStart, press-stage
counter, timeouts and interval - unchanged; and over any dispatch sequence
from a fresh listen call, every prefix of the emission trace contains at
most as many release events as push events, so a release is only ever
delivered after the matching push was delivered to the same call. -/
theorem keyup_without_push_ignored (now : Nat) (k : KeyObj)
    (p : Option (List PressStage)) (kc : Nat) (keyName : String)
    (h : k.isPushed = false) :
    onUpEvent now k = (k, []) ∧
    ∀ (ins : List KeyDispatch) (pre : List Emitted),
      pre <+: (runKeyObj p kc (initKeyObj keyName) ins).2 →
      releaseCount pre ≤ pushCount pre := by
  constructor
  · simp [onUpEvent, h]
  · intro ins pre hpre
    have hb := runKeyObj_prefix_release_le p kc ins (initKeyObj keyName) pre hpre
    simpa [initKeyObj] using hb

/-- C3 witness: a keyup on a fresh (never pushed) key object is a no-op,
and for the concrete run consisting of one valid keydown for code 38 the
one-element prefix of its trace satisfies the release/push bound. -/
theorem keyup_without_push_ignored_witness :
    onUpEvent 5 (initKeyObj "Up") = (initKeyObj "Up", []) ∧
    releaseCount [pushEvent "Up"] ≤ pushCount [pushEvent "Up"] := by
  have h := keyup_without_push_ignored 5 (initKeyObj "Up") none 38 "Up" rfl
  exact ⟨h.1, h.2 [KeyDispatch.down [38] 1] [pushEvent "Up"] (by decide)⟩

/-- C5: the claim states that a parsed press-stage array is in ascending
order of the `after` values, but `_sortPressIntervals` declares its
insertion-sort cursor as `const j = i` and never decrements it, so each
element moves at most one slot to the left: `[after: 300, after: 200,
after: 100]` comes out as `[200, 100, 300]`, which is not ascending.  In
addition, an entry dropped for having neither a usable `after` nor a usable
`interval` is spliced out while the loop bound `len` keeps its original
value, so the loop then reads past the end of the array and throws a
TypeError instead of returning the shortened list. -/
theorem sortPressIntervals_leaves_output_unsorted :
    sortPressIntervals
        [{ after := some 300, interval := none },
         { after := some 200, interval := none },
         { after := some 100, interval := none }]
      = .ok [{ after := some 200, interval := none },
             { after := some 100, interval := none },
             { after := some 300, interval := none }] ∧
    ¬ List.Sorted (· ≤ ·) [(200 : Int), 100, 300] ∧
    sortPressIntervals
        [{ after := some 100, interval := none },
         { after := none, interval := none }]
      = .error () := by
  refine ⟨?_, by decide, ?_⟩
  · simp [sortPressIntervals, sortLoop, jsSwapStep, jsGT]
  · simp [sortPressIntervals, sortLoop, jsSwapStep, jsGT]

/-- C6: unregistering callback 2, the most recently added entry of the
topmost layer for key name Up, while key code 38 (mapped to Up) is still
held and the newly-active callback 1 registered with re-emit delay 500:
the pending re-emit timer is cancelled and a new 500 ms timer is armed, as
the claim states - but the body of the armed timer is the unregister-path
`keyCodesMaintained.forEach(...)` (key_catcher.js line 558), a method
lookup on a plain object, so firing it throws a TypeError and dispatches no
synthetic keydown, where the claim (and the register-path body of lines
401-406) dispatches one synthetic keydown per still-held code of the key
name. -/
theorem unregister_rearm_timer_body_broken :
    unregisterKeyListener [(38, "Up")]
        (fun c => if c = 1 ∨ c = 2 then some 500 else none) [38] "Up" 2
        { layers := [[1, 2]], reEmitTimerPending := true,
          keyCodesMaintained := none }
      = ({ layers := [[1]], reEmitTimerPending := true,
           keyCodesMaintained := some [38] },
         { clearedTimer := true,
           armedTimer := some (500, ReEmitBody.onObject) }) ∧
    fireReEmitBody (fun _ => some [38]) ReEmitBody.onObject = .error () ∧
    fireReEmitBody (fun _ => some [38]) (ReEmitBody.perKeyName "Up")
      = .ok [38] := by
  exact ⟨rfl, rfl, rfl⟩

end RKeyboard
